import Mathlib

/-!
Shallow embedding of the video generation pipeline of the image-to-video
service (handler `generateVideo` and its helper `generateVideoWithFFmpeg`),
together with the database rows it manipulates.

External effects (database query results, `Date.now()` readings, filesystem
copy/remove outcomes, and the child encoder process outcome) are supplied by
an explicit environment record, so the handler becomes a pure function from
the pre-state and the environment to the post-state and the returned value.
Database updates themselves are modelled as reliable state transitions;
`fs.mkdir` with `recursive: true` is modelled as always succeeding, since no
claim depends on its failure.
-/

namespace ImageToVideo

/-- Project lifecycle status, mirroring the `project_status` enum of the
database schema. -/
inductive Status
  | pending
  | processing
  | completed
  | failed
deriving DecidableEq, Repr

/-- A row of the `video_projects` table.  `duration_per_image` is kept as the
numeric string stored in the database column; timestamps are abstract ticks. -/
structure Project where
  id : Nat
  name : String
  status : Status
  output_path : Option String
  duration_per_image : String
  fps : Nat
  created_at : Nat
  updated_at : Nat
deriving DecidableEq, Repr

/-- A row of the `images` table. -/
structure Image where
  id : Nat
  project_id : Nat
  filename : String
  file_path : String
  file_size : Nat
  mime_type : String
  order_index : Nat
  uploaded_at : Nat
deriving DecidableEq, Repr

/-- The character of a single decimal digit. -/
def digitChar (d : Nat) : Char := Char.ofNat (48 + d)

/-- Fuel-driven decimal digit rendering; the fuel is structural so the
definition reduces in the kernel. -/
def natDigitsAux : Nat → Nat → List Char
  | 0, _ => []
  | f + 1, n =>
    if n < 10 then [digitChar n]
    else natDigitsAux f (n / 10) ++ [digitChar (n % 10)]

/-- Decimal rendering of a natural number: the embedding of the JavaScript
number-to-string conversion used inside template literals. -/
def natToDec (n : Nat) : String := String.mk (natDigitsAux (n + 1) n)

/-- The embedding of `s.padStart(4, '0')`. -/
def padStart4 (s : String) : String :=
  if 4 ≤ s.data.length then s
  else String.mk (List.replicate (4 - s.data.length) '0' ++ s.data)

/-- The output path allocated at step 5 of the handler:
`path.join('uploads', 'videos', 'project_' + id + '_' + Date.now() + '.mp4')`. -/
def outputPathOf (pid now : Nat) : String :=
  "uploads/videos/project_" ++ natToDec pid ++ "_" ++ natToDec now ++ ".mp4"

/-- The staging (temp) directory allocated at step 5 of the handler. -/
def tempDirOf (pid now : Nat) : String :=
  "uploads/temp/project_" ++ natToDec pid ++ "_" ++ natToDec now

/-- The staged frame path `path.join(tempDir, 'image_' + i.padStart(4,'0') + '.jpg')`. -/
def stagedImagePath (tempDir : String) (i : Nat) : String :=
  tempDir ++ "/image_" ++ padStart4 (natToDec i) ++ ".jpg"

/-- Contents of a file in the artifact store.  An encoded video records the
encoder inputs, so it is distinguishable from the placeholder emitted when
the encoder binary is unavailable. -/
inductive FileContent
  | imageBytes (data : List Nat)
  | encodedVideo (frames : List String) (durationPerImage : String) (fps : Nat)
  | placeholderMp4
deriving DecidableEq, Repr

/-- Is `p` a path strictly inside directory `d` (i.e. does `p` start with
`d ++ "/"`)? -/
def underDir (d p : String) : Bool :=
  (d ++ "/").data == p.data.take (d.data.length + 1)

/-- Strict lexicographic order on strings, character by character (the order
in which a directory listing sorts file names). -/
def strLt (s t : String) : Prop := List.lt s.data t.data

instance (s t : String) : Decidable (strLt s t) := List.hasDecidableLt s.data t.data

/-- The artifact store: files with contents, plus a set of directories. -/
structure Store where
  files : List (String × FileContent)
  dirs : List String
deriving DecidableEq, Repr

/-- Does a file exist at path `p` (the model of a successful `fs.access`)? -/
def Store.hasFile (s : Store) (p : String) : Bool :=
  (s.files.find? (fun f => f.1 == p)).isSome

/-- The contents stored at path `p`, if any. -/
def Store.getFile (s : Store) (p : String) : Option FileContent :=
  (s.files.find? (fun f => f.1 == p)).map (fun f => f.2)

/-- Write (create or overwrite) the file at path `p`. -/
def Store.writeFile (s : Store) (p : String) (c : FileContent) : Store :=
  { s with files := (p, c) :: s.files.filter (fun f => !(f.1 == p)) }

/-- `fs.mkdir` with `recursive: true`, modelled as always succeeding. -/
def Store.mkdir (s : Store) (d : String) : Store :=
  { s with dirs := d :: s.dirs }

/-- `fs.rm(d, { recursive: true, force: true })`: the directory and every
file under it disappear. -/
def Store.removeDir (s : Store) (d : String) : Store :=
  { files := s.files.filter (fun f => !(underDir d f.1)),
    dirs := s.dirs.filter (fun x => !(x == d || underDir d x)) }

/-- Outcome of the spawned encoder child process. -/
inductive ProcOutcome
  | spawnError (msg : String)
  | exited (code : Int) (stderr : String)
deriving DecidableEq, Repr

/-- Whether `require('ffmpeg-static')` resolves, and if so how the child
process behaves; when unavailable, whether the placeholder write succeeds. -/
inductive EncoderEnv
  | unavailable (writeOk : Bool)
  | available (outcome : ProcOutcome)
deriving DecidableEq, Repr

/-- The classified errors the pipeline can raise. -/
inductive GenError
  | notFound (pid : Nat)
  | emptyInput (pid : Nat)
  | missingAsset (path : String)
  | copyFailed (path : String)
  | encodeFailed (code : Int) (stderr : String)
  | spawnFailed (msg : String)
  | writeFailed (path : String)
  | rmFailed (path : String)
deriving DecidableEq, Repr

/-- The external world for one call of `generateVideo`: the rows returned by
the ordered image query, the two `Date.now()` readings, the two `new Date()`
timestamps used in updates, and the outcomes of the fallible filesystem and
process operations. -/
structure Env where
  queryImages : List Image
  nowOut : Nat
  nowTmp : Nat
  tProc : Nat
  tFin : Nat
  copyFail : Option Nat
  encoder : EncoderEnv
  rmOk : Bool
  cleanupOk : Bool
deriving DecidableEq, Repr

/-- Everything observable after one call of `generateVideo`: the returned
value or raised error, the database, the store, whether a staging directory
was allocated and whether its removal was attempted. -/
structure GenOutcome where
  result : Except GenError Project
  db : List Project
  store : Store
  staging : Option String
  stagingRemovalAttempted : Bool
deriving Repr

/-- `UPDATE video_projects SET status = st, updated_at = t WHERE id = pid`. -/
def dbUpdateStatus (db : List Project) (pid : Nat) (st : Status) (t : Nat) : List Project :=
  db.map (fun p => if p.id = pid then { p with status := st, updated_at := t } else p)

/-- The success-path update: status `completed`, the new output path, and a
fresh timestamp. -/
def dbUpdateCompleted (db : List Project) (pid : Nat) (out : String) (t : Nat) : List Project :=
  db.map (fun p =>
    if p.id = pid then
      { p with status := .completed, output_path := some out, updated_at := t }
    else p)

/-- `SELECT * FROM video_projects WHERE id = pid`, first row. -/
def dbSelectProject (db : List Project) (pid : Nat) : Option Project :=
  db.find? (fun p => p.id == pid)

/-- The images of project `pid`, in table order (before the ORDER BY). -/
def projectImages (all : List Image) (pid : Nat) : List Image :=
  all.filter (fun i => i.project_id == pid)

/-- Validity of a result of the ordered image query
`SELECT ... WHERE project_id = pid ORDER BY order_index ASC`: SQL guarantees
a permutation of the project's rows that is nondecreasing in `order_index`,
and nothing more — rows tied on `order_index` come back in an unspecified
order. -/
def ImagesQuery (all : List Image) (pid : Nat) (res : List Image) : Prop :=
  res.Perm (projectImages all pid) ∧
  res.Pairwise (fun a b => a.order_index ≤ b.order_index)

instance : DecidableRel (fun a b : Image => a.order_index ≤ b.order_index) :=
  fun a b => Nat.decLe a.order_index b.order_index

instance (all : List Image) (pid : Nat) (res : List Image) :
    Decidable (ImagesQuery all pid res) := by
  unfold ImagesQuery
  exact inferInstance

/-- Step 4 of the handler: `fs.access` each image's file in order and report
the first missing one. -/
def firstMissing (store : Store) : List Image → Option String
  | [] => none
  | img :: rest =>
    if store.hasFile img.file_path then firstMissing store rest
    else some img.file_path

/-- Step 6 of the handler: copy each source file, in order, to
`tempDir/image_NNNN.jpg`, collecting the staged paths; a copy failure aborts
the loop and surfaces the offending source path. -/
def stageLoop (copyFail : Option Nat) (tempDir : String) :
    Store → Nat → List Image → Store × Except GenError (List String)
  | st, _, [] => (st, .ok [])
  | st, i, img :: rest =>
    if copyFail = some i then (st, .error (.copyFailed img.file_path))
    else
      match st.getFile img.file_path with
      | none => (st, .error (.copyFailed img.file_path))
      | some c =>
        let dst := stagedImagePath tempDir i
        match stageLoop copyFail tempDir (st.writeFile dst c) (i + 1) rest with
        | (st2, .error e) => (st2, .error e)
        | (st2, .ok paths) => (st2, .ok (dst :: paths))

/-- The encoder adapter `generateVideoWithFFmpeg`: if `require('ffmpeg-static')`
resolves, spawn the encoder; a zero exit status writes the encoded video and
resolves, a non-zero exit rejects with the exit code and the captured stderr,
and a spawn failure rejects with the spawn error message.  If the module is
unavailable, fall back to writing a minimal placeholder MP4 at the output
path. -/
def generateVideoWithFFmpeg (store : Store) (enc : EncoderEnv) (imagePaths : List String)
    (outputPath : String) (durationPerImage : String) (fps : Nat) :
    Except GenError Store :=
  match enc with
  | .available (.exited code stderr) =>
    if code = 0 then
      .ok (store.writeFile outputPath (.encodedVideo imagePaths durationPerImage fps))
    else .error (.encodeFailed code stderr)
  | .available (.spawnError msg) => .error (.spawnFailed msg)
  | .unavailable writeOk =>
    if writeOk then .ok (store.writeFile outputPath .placeholderMp4)
    else .error (.writeFailed outputPath)

/-- The handler `generateVideo` of `handlers/generate_video.ts`, step by step:
set `processing`; select the project; take the ordered image query result;
check non-emptiness; check every file exists; allocate output path and temp
directory; stage the frames; run the encoder; remove the temp directory; on
success persist `completed` with the output path, on any error best-effort
remove the temp directory (when one was created), persist `failed` leaving
`output_path` untouched, and re-raise the original error. -/
def generateVideo (db : List Project) (store : Store) (env : Env) (pid : Nat) : GenOutcome :=
  let db1 := dbUpdateStatus db pid .processing env.tProc
  match dbSelectProject db1 pid with
  | none =>
    { result := .error (.notFound pid)
      db := dbUpdateStatus db1 pid .failed env.tFin
      store := store
      staging := none
      stagingRemovalAttempted := false }
  | some project =>
    let images := env.queryImages
    if images.isEmpty then
      { result := .error (.emptyInput pid)
        db := dbUpdateStatus db1 pid .failed env.tFin
        store := store
        staging := none
        stagingRemovalAttempted := false }
    else
      match firstMissing store images with
      | some missing =>
        { result := .error (.missingAsset missing)
          db := dbUpdateStatus db1 pid .failed env.tFin
          store := store
          staging := none
          stagingRemovalAttempted := false }
      | none =>
        let store1 := store.mkdir "uploads/videos"
        let outputPath := outputPathOf pid env.nowOut
        let tempDir := tempDirOf pid env.nowTmp
        let store2 := store1.mkdir tempDir
        match stageLoop env.copyFail tempDir store2 0 images with
        | (store3, .error e) =>
          { result := .error e
            db := dbUpdateStatus db1 pid .failed env.tFin
            store := if env.cleanupOk then store3.removeDir tempDir else store3
            staging := some tempDir
            stagingRemovalAttempted := true }
        | (store3, .ok processedImages) =>
          match generateVideoWithFFmpeg store3 env.encoder processedImages outputPath
              project.duration_per_image project.fps with
          | .error e =>
            { result := .error e
              db := dbUpdateStatus db1 pid .failed env.tFin
              store := if env.cleanupOk then store3.removeDir tempDir else store3
              staging := some tempDir
              stagingRemovalAttempted := true }
          | .ok store4 =>
            if env.rmOk then
              { result := .ok { project with
                  status := .completed
                  output_path := some outputPath
                  updated_at := env.tFin }
                db := dbUpdateCompleted db1 pid outputPath env.tFin
                store := store4.removeDir tempDir
                staging := some tempDir
                stagingRemovalAttempted := true }
            else
              { result := .error (.rmFailed tempDir)
                db := dbUpdateStatus db1 pid .failed env.tFin
                store := if env.cleanupOk then store4.removeDir tempDir else store4
                staging := some tempDir
                stagingRemovalAttempted := true }

/-- Did the call resolve (as opposed to reject)? -/
def resultOk : Except GenError Project → Bool
  | .ok _ => true
  | .error _ => false

/-- Does an error carry an exit code and captured stderr (the data an
`EncodeFailed` of the specification must carry)? -/
def carriesExitInfo : GenError → Bool
  | .encodeFailed _ _ => true
  | _ => false

instance {ε α : Type} [DecidableEq ε] [DecidableEq α] : DecidableEq (Except ε α) := fun a b =>
  match a, b with
  | .ok x, .ok y => decidable_of_iff (x = y) (by simp)
  | .error x, .error y => decidable_of_iff (x = y) (by simp)
  | .ok _, .error _ => isFalse (fun h => by cases h)
  | .error _, .ok _ => isFalse (fun h => by cases h)

/-- The numeric value of a list of decimal digit characters. -/
def decVal (cs : List Char) : Nat :=
  cs.foldl (fun a c => 10 * a + (c.toNat - 48)) 0

/-- The four decimal digits of a number below 10000, most significant first. -/
def fourDigits (n : Nat) : List Char :=
  [digitChar (n / 1000), digitChar (n / 100 % 10), digitChar (n / 10 % 10), digitChar (n % 10)]

/-- Running a sequence of generation attempts for one project, threading the
database and the store, and collecting each attempt's result (most recent
last). -/
def runAttempts (pid : Nat) :
    List Project → Store → List Env → (List Project × Store) × List (Except GenError Project)
  | db, store, [] => ((db, store), [])
  | db, store, env :: rest =>
    let out := generateVideo db store env pid
    let r := runAttempts pid out.db out.store rest
    (r.1, out.result :: r.2)

/-- Did at least one of the collected attempt results resolve? -/
def anySucceeded (rs : List (Except GenError Project)) : Bool := rs.any resultOk

/-! ### Concrete data used by witnesses and counterexamples -/

/-- A freshly created project record. -/
def exProject : Project := ⟨1, "Demo", .pending, none, "2.00", 30, 0, 0⟩

/-- An uploaded image whose file exists in the store. -/
def exImage0 : Image := ⟨1, 1, "a.jpg", "uploads/images/a.jpg", 3, "image/jpeg", 0, 0⟩

/-- A second uploaded image with the next order index. -/
def exImage1 : Image := ⟨2, 1, "b.jpg", "uploads/images/b.jpg", 4, "image/jpeg", 1, 0⟩

/-- An image sharing `order_index = 0` with `exImage0`. -/
def exDup : Image := ⟨2, 1, "b.jpg", "uploads/images/b.jpg", 4, "image/jpeg", 0, 0⟩

/-- An image whose stored file is absent from the store. -/
def exMissing : Image := ⟨3, 1, "c.jpg", "uploads/images/c.jpg", 5, "image/jpeg", 1, 0⟩

/-- A store holding the two example image files. -/
def exStore : Store :=
  ⟨[("uploads/images/a.jpg", .imageBytes [1, 2, 3]),
    ("uploads/images/b.jpg", .imageBytes [4, 5, 6])], ["uploads/images"]⟩

/-- An environment under which generation fully succeeds. -/
def envSuccess : Env := ⟨[exImage0], 100, 100, 1, 2, none, .available (.exited 0 ""), true, true⟩

/-- Like `envSuccess` but with a different staging-directory timestamp: a
distinct attempt that allocates the same output path. -/
def envSuccess2 : Env := ⟨[exImage0], 100, 101, 1, 2, none, .available (.exited 0 ""), true, true⟩

/-- An environment whose encoder process exits with code 1. -/
def envEncodeFail : Env :=
  ⟨[exImage0], 200, 200, 11, 12, none, .available (.exited 1 "boom"), true, true⟩

/-- An environment with the encoder module unavailable; the placeholder write
succeeds. -/
def envPlaceholder : Env := ⟨[exImage0], 100, 100, 1, 2, none, .unavailable true, true, true⟩

/-- An environment where encoding succeeds but the staging-directory removal
throws. -/
def envRmFail : Env := ⟨[exImage0], 100, 100, 1, 2, none, .available (.exited 0 ""), false, true⟩

/-- An environment whose image query returns an image with a missing file
after one present image. -/
def envMissing : Env :=
  ⟨[exImage0, exMissing], 100, 100, 1, 2, none, .available (.exited 0 ""), true, true⟩

/-- An environment whose image query comes back empty. -/
def envEmpty : Env := ⟨[], 100, 100, 1, 2, none, .available (.exited 0 ""), true, true⟩

/-! ### Decimal rendering: basic lemmas -/

theorem digitChar_toNat : ∀ d, d < 10 → (digitChar d).toNat = 48 + d := by decide

theorem digitChar_ne_underscore : ∀ d, d < 10 → digitChar d ≠ '_' := by decide

theorem natDigitsAux_fuel : ∀ (f g n : Nat), n < f → n < g → natDigitsAux f n = natDigitsAux g n := by
  intro f
  induction f with
  | zero => intro g n h; omega
  | succ f ih =>
    intro g n hf hg
    cases g with
    | zero => omega
    | succ g =>
      simp only [natDigitsAux]
      by_cases h10 : n < 10
      · simp [h10]
      · simp only [h10, if_false]
        rw [ih g (n / 10) (by omega) (by omega)]

theorem natDec_lt10 {n : Nat} (h : n < 10) : (natToDec n).data = [digitChar n] := by
  show natDigitsAux (n + 1) n = _
  simp [natDigitsAux, h]

theorem natDec_ge10 {n : Nat} (h : 10 ≤ n) :
    (natToDec n).data = (natToDec (n / 10)).data ++ [digitChar (n % 10)] := by
  have h2 : natDigitsAux (n + 1) n = natDigitsAux n (n / 10) ++ [digitChar (n % 10)] := by
    conv_lhs => rw [natDigitsAux]
    rw [if_neg (Nat.not_lt.2 h)]
  show natDigitsAux (n + 1) n = natDigitsAux (n / 10 + 1) (n / 10) ++ _
  rw [h2, natDigitsAux_fuel n (n / 10 + 1) (n / 10) (by omega) (by omega)]

theorem decVal_natToDec : ∀ n, decVal (natToDec n).data = n := by
  intro n
  induction n using Nat.strong_induction_on with
  | _ n ih =>
    by_cases h : n < 10
    · rw [natDec_lt10 h]
      simp [decVal, digitChar_toNat n h]
    · rw [natDec_ge10 (by omega)]
      unfold decVal
      rw [List.foldl_append]
      have hv := ih (n / 10) (by omega)
      unfold decVal at hv
      rw [hv]
      simp [digitChar_toNat (n % 10) (by omega)]
      omega

theorem natToDec_data_inj {n m : Nat} (h : (natToDec n).data = (natToDec m).data) : n = m := by
  have h1 := decVal_natToDec n
  have h2 := decVal_natToDec m
  rw [h] at h1
  omega

theorem natToDec_mem_digit : ∀ n c, c ∈ (natToDec n).data → ∃ d, d < 10 ∧ c = digitChar d := by
  intro n
  induction n using Nat.strong_induction_on with
  | _ n ih =>
    intro c hc
    by_cases h : n < 10
    · rw [natDec_lt10 h] at hc
      simp at hc
      exact ⟨n, h, hc⟩
    · rw [natDec_ge10 (by omega)] at hc
      rcases List.mem_append.1 hc with h1 | h2
      · exact ih (n / 10) (by omega) c h1
      · simp at h2
        exact ⟨n % 10, by omega, h2⟩

theorem natToDec_no_underscore {n : Nat} : ∀ c ∈ (natToDec n).data, c ≠ '_' := by
  intro c hc
  obtain ⟨d, hd, rfl⟩ := natToDec_mem_digit n c hc
  exact digitChar_ne_underscore d hd

/-- Splitting a char list at a separator that occurs in neither half. -/
theorem append_sep_inj :
    ∀ (a b u v : List Char), (∀ c ∈ a, c ≠ '_') → (∀ c ∈ b, c ≠ '_') →
      a ++ '_' :: u = b ++ '_' :: v → a = b ∧ u = v := by
  intro a
  induction a with
  | nil =>
    intro b u v _ hb h
    cases b with
    | nil => simpa using h
    | cons c bt =>
      exfalso
      simp only [List.nil_append, List.cons_append, List.cons.injEq] at h
      exact hb c (by simp) h.1.symm
  | cons c as ih =>
    intro b u v ha hb h
    cases b with
    | nil =>
      exfalso
      simp only [List.nil_append, List.cons_append, List.cons.injEq] at h
      exact ha c (by simp) h.1
    | cons c2 bt =>
      simp only [List.cons_append, List.cons.injEq] at h
      obtain ⟨h1, h2⟩ :=
        ih bt u v (fun x hx => ha x (by simp [hx])) (fun x hx => hb x (by simp [hx])) h.2
      exact ⟨by rw [h.1, h1], h2⟩

/-- The allocated output path is injective in the project id and the
millisecond timestamp, and collides exactly when both coincide. -/
theorem outputPathOf_inj (p t q s : Nat) :
    outputPathOf p t = outputPathOf q s ↔ p = q ∧ t = s := by
  constructor
  · intro h
    have hd := congrArg String.data h
    simp only [outputPathOf, String.data_append, List.append_assoc] at hd
    have hd2 := List.append_cancel_left hd
    simp only [List.singleton_append] at hd2
    obtain ⟨h1, h2⟩ :=
      append_sep_inj _ _ _ _ (natToDec_no_underscore) (natToDec_no_underscore) hd2
    refine ⟨natToDec_data_inj h1, natToDec_data_inj ?_⟩
    exact List.append_cancel_right h2
  · rintro ⟨rfl, rfl⟩
    rfl

/-! ### Zero-padded staged frame names and lexicographic order -/

theorem natDec_data_2 {n : Nat} (h1 : 10 ≤ n) (h2 : n < 100) :
    (natToDec n).data = [digitChar (n / 10), digitChar (n % 10)] := by
  rw [natDec_ge10 h1, natDec_lt10 (show n / 10 < 10 by omega)]
  rfl

theorem natDec_data_3 {n : Nat} (h1 : 100 ≤ n) (h2 : n < 1000) :
    (natToDec n).data = [digitChar (n / 100), digitChar (n / 10 % 10), digitChar (n % 10)] := by
  rw [natDec_ge10 (by omega), natDec_data_2 (by omega) (by omega)]
  have e1 : n / 10 / 10 = n / 100 := by omega
  have e2 : n / 10 % 10 = n / 10 % 10 := rfl
  rw [e1]
  rfl

theorem natDec_data_4 {n : Nat} (h1 : 1000 ≤ n) (h2 : n < 10000) :
    (natToDec n).data =
      [digitChar (n / 1000), digitChar (n / 100 % 10), digitChar (n / 10 % 10),
        digitChar (n % 10)] := by
  rw [natDec_ge10 (by omega), natDec_data_3 (by omega) (by omega)]
  have e1 : n / 10 / 100 = n / 1000 := by omega
  have e2 : n / 10 / 10 = n / 100 := by omega
  rw [e1, e2]
  rfl

theorem pad4_data {n : Nat} (h : n < 10000) :
    (padStart4 (natToDec n)).data = fourDigits n := by
  unfold padStart4 fourDigits
  by_cases c1 : n < 10
  · have hl : (natToDec n).data.length = 1 := by rw [natDec_lt10 c1]; rfl
    rw [if_neg (by rw [hl]; omega)]
    show List.replicate (4 - (natToDec n).data.length) '0' ++ (natToDec n).data = _
    rw [hl, natDec_lt10 c1]
    have h1 : n / 1000 = 0 := by omega
    have h2 : n / 100 % 10 = 0 := by omega
    have h3 : n / 10 % 10 = 0 := by omega
    have h4 : n % 10 = n := by omega
    rw [h1, h2, h3, h4, show digitChar 0 = '0' by decide]
    rfl
  · by_cases c2 : n < 100
    · have hl : (natToDec n).data.length = 2 := by rw [natDec_data_2 (by omega) c2]; rfl
      rw [if_neg (by rw [hl]; omega)]
      show List.replicate (4 - (natToDec n).data.length) '0' ++ (natToDec n).data = _
      rw [hl, natDec_data_2 (by omega) c2]
      have h1 : n / 1000 = 0 := by omega
      have h2 : n / 100 % 10 = 0 := by omega
      have h3 : n / 10 % 10 = n / 10 := by omega
      rw [h1, h2, h3, show digitChar 0 = '0' by decide]
      rfl
    · by_cases c3 : n < 1000
      · have hl : (natToDec n).data.length = 3 := by rw [natDec_data_3 (by omega) c3]; rfl
        rw [if_neg (by rw [hl]; omega)]
        show List.replicate (4 - (natToDec n).data.length) '0' ++ (natToDec n).data = _
        rw [hl, natDec_data_3 (by omega) c3]
        have h1 : n / 1000 = 0 := by omega
        have h2 : n / 100 % 10 = n / 100 := by omega
        rw [h1, h2, show digitChar 0 = '0' by decide]
        rfl
      · have hl : (natToDec n).data.length = 4 := by rw [natDec_data_4 (by omega) h]; rfl
        rw [if_pos (by rw [hl])]
        exact natDec_data_4 (by omega) h

theorem digitChar_lt_mono : ∀ a, a < 10 → ∀ b, b < 10 → a < b → digitChar a < digitChar b := by
  decide

theorem list_lt_append_same (l : List Char) {a b : List Char} (h : List.lt a b) :
    List.lt (l ++ a) (l ++ b) := by
  induction l with
  | nil => exact h
  | cons c t ih => exact List.lt.tail (lt_irrefl c) (lt_irrefl c) ih

theorem list_lt_append_of_length :
    ∀ (as bs : List Char), as.length = bs.length → List.lt as bs →
      ∀ (t u : List Char), List.lt (as ++ t) (bs ++ u) := by
  intro as
  induction as with
  | nil =>
    intro bs h hlt
    cases bs with
    | nil => cases hlt
    | cons b bt => simp at h
  | cons a as ih =>
    intro bs h hlt t u
    cases bs with
    | nil => simp at h
    | cons b bt =>
      cases hlt with
      | head _ _ hab => exact List.lt.head _ _ hab
      | tail h1 h2 h3 => exact List.lt.tail h1 h2 (ih bt (by simpa using h) h3 t u)

theorem fourDigits_lt {n m : Nat} (hn : n < 10000) (hm : m < 10000) (h : n < m) :
    List.lt (fourDigits n) (fourDigits m) := by
  unfold fourDigits
  rcases Nat.lt_trichotomy (n / 1000) (m / 1000) with h3 | h3 | h3
  · exact List.lt.head _ _ (digitChar_lt_mono _ (by omega) _ (by omega) h3)
  · refine List.lt.tail (by rw [h3]; exact lt_irrefl _) (by rw [h3]; exact lt_irrefl _) ?_
    rcases Nat.lt_trichotomy (n / 100 % 10) (m / 100 % 10) with h2 | h2 | h2
    · exact List.lt.head _ _ (digitChar_lt_mono _ (by omega) _ (by omega) h2)
    · refine List.lt.tail (by rw [h2]; exact lt_irrefl _) (by rw [h2]; exact lt_irrefl _) ?_
      rcases Nat.lt_trichotomy (n / 10 % 10) (m / 10 % 10) with h1 | h1 | h1
      · exact List.lt.head _ _ (digitChar_lt_mono _ (by omega) _ (by omega) h1)
      · refine List.lt.tail (by rw [h1]; exact lt_irrefl _) (by rw [h1]; exact lt_irrefl _) ?_
        exact List.lt.head _ _ (digitChar_lt_mono _ (by omega) _ (by omega) (by omega))
      · exact absurd h (by omega)
    · exact absurd h (by omega)
  · exact absurd h (by omega)

/-- Staged frame names are strictly increasing in the frame index as long as
the index stays below 10000 (where the 4-digit zero padding is exact). -/
theorem stagedImagePath_lt (d : String) {i j : Nat} (hij : i < j) (hj : j < 10000) :
    strLt (stagedImagePath d i) (stagedImagePath d j) := by
  show List.lt (stagedImagePath d i).data (stagedImagePath d j).data
  unfold stagedImagePath
  simp only [String.data_append, List.append_assoc]
  apply list_lt_append_same
  apply list_lt_append_same
  rw [pad4_data (lt_trans hij hj), pad4_data hj]
  exact list_lt_append_of_length (fourDigits i) (fourDigits j) rfl
    (fourDigits_lt (lt_trans hij hj) hj hij) _ _

/-- The staging directory never contains the allocated output path: the two
live under the disjoint roots `uploads/temp` and `uploads/videos`. -/
theorem underDir_tempDir_outputPath (a b c d : Nat) :
    underDir (tempDirOf a b) (outputPathOf c d) = false := by
  unfold underDir
  rw [beq_eq_false_iff_ne]
  intro hEq
  have hL : (tempDirOf a b ++ "/").data[8]? = some 't' := by
    simp only [tempDirOf, String.data_append, List.append_assoc]
    rw [List.getElem?_append]
    simp
  have hR : ((outputPathOf c d).data.take ((tempDirOf a b).data.length + 1))[8]? = some 'v' := by
    rw [List.getElem?_take]
    have hlen : 8 < (tempDirOf a b).data.length + 1 := by
      simp only [tempDirOf, String.data_append, List.length_append, List.length_cons,
        List.length_nil]
      omega
    rw [if_pos hlen]
    simp only [outputPathOf, String.data_append, List.append_assoc]
    rw [List.getElem?_append]
    simp
  have h8 := congrArg (fun l => l[8]?) hEq
  simp only at h8
  rw [hL, hR] at h8
  cases h8

/-! ### Store and database lemmas -/

theorem find?_filter_of_imp {α : Type} (l : List α) (p q : α → Bool)
    (h : ∀ x ∈ l, p x = true → q x = true) : (l.filter q).find? p = l.find? p := by
  induction l with
  | nil => rfl
  | cons a t ih =>
    have ht : ∀ x ∈ t, p x = true → q x = true := fun x hx => h x (by simp [hx])
    cases hq : q a
    · have hpa : p a = false := by
        cases hpa : p a
        · rfl
        · rw [h a (by simp) hpa] at hq
          cases hq
      simp [List.filter_cons, hq, List.find?_cons, hpa, ih ht]
    · cases hpa : p a <;> simp [List.filter_cons, hq, List.find?_cons, hpa, ih ht]

theorem hasFile_iff_getFile (s : Store) (q : String) :
    s.hasFile q = (s.getFile q).isSome := by
  unfold Store.hasFile Store.getFile
  cases s.files.find? (fun f => f.1 == q) <;> rfl

theorem getFile_writeFile_self (s : Store) (p : String) (c : FileContent) :
    (s.writeFile p c).getFile p = some c := by
  simp [Store.getFile, Store.writeFile, List.find?_cons]

theorem getFile_writeFile_ne (s : Store) {p q : String} (h : q ≠ p) (c : FileContent) :
    (s.writeFile p c).getFile q = s.getFile q := by
  unfold Store.getFile Store.writeFile
  have hbeq : ((p, c).1 == q) = false := beq_eq_false_iff_ne.2 (fun hpq => h (hpq.symm))
  simp only [List.find?_cons, hbeq]
  rw [find?_filter_of_imp]
  intro x _ hx
  have : x.1 = q := by simpa using hx
  simp [this, h]

theorem hasFile_writeFile_of (s : Store) (p : String) (c : FileContent) {q : String}
    (h : s.hasFile q = true) : (s.writeFile p c).hasFile q = true := by
  by_cases hqp : q = p
  · subst hqp
    rw [hasFile_iff_getFile, getFile_writeFile_self]
    rfl
  · rw [hasFile_iff_getFile, getFile_writeFile_ne s hqp, ← hasFile_iff_getFile]
    exact h

theorem getFile_removeDir (s : Store) {d p : String} (h : underDir d p = false) :
    (s.removeDir d).getFile p = s.getFile p := by
  unfold Store.removeDir Store.getFile
  simp only
  rw [find?_filter_of_imp]
  intro x _ hx
  have hx1 : x.1 = p := by simpa using hx
  rw [hx1, h]
  rfl

theorem getFile_mkdir (s : Store) (d p : String) : (s.mkdir d).getFile p = s.getFile p := rfl

theorem hasFile_mkdir (s : Store) (d p : String) : (s.mkdir d).hasFile p = s.hasFile p := rfl

theorem dbSelectProject_map (db : List Project) (pid : Nat) (g : Project → Project)
    (hg : ∀ p, (g p).id = p.id) :
    dbSelectProject (db.map g) pid = (dbSelectProject db pid).map g := by
  unfold dbSelectProject
  rw [List.find?_map]
  have hfun : ((fun p : Project => p.id == pid) ∘ g) = (fun p : Project => p.id == pid) :=
    funext fun p => by simp [Function.comp, hg]
  rw [hfun]

theorem dbSelect_found_id {db : List Project} {pid : Nat} {p : Project}
    (h : dbSelectProject db pid = some p) : p.id = pid := by
  unfold dbSelectProject at h
  have := List.find?_some h
  simpa using this

theorem dbSelect_updateStatus (db : List Project) (pid : Nat) (st : Status) (t : Nat) :
    dbSelectProject (dbUpdateStatus db pid st t) pid =
      (dbSelectProject db pid).map (fun p => { p with status := st, updated_at := t }) := by
  unfold dbUpdateStatus
  rw [dbSelectProject_map db pid _ (fun p => by by_cases h : p.id = pid <;> simp [h])]
  cases hf : dbSelectProject db pid with
  | none => rfl
  | some p =>
    have hid : p.id = pid := dbSelect_found_id hf
    simp [hid]

theorem dbSelect_updateCompleted (db : List Project) (pid : Nat) (out : String) (t : Nat) :
    dbSelectProject (dbUpdateCompleted db pid out t) pid =
      (dbSelectProject db pid).map
        (fun p => { p with status := .completed, output_path := some out, updated_at := t }) := by
  unfold dbUpdateCompleted
  rw [dbSelectProject_map db pid _ (fun p => by by_cases h : p.id = pid <;> simp [h])]
  cases hf : dbSelectProject db pid with
  | none => rfl
  | some p =>
    have hid : p.id = pid := dbSelect_found_id hf
    simp [hid]

/-! ### Validation, staging and encoder lemmas -/

theorem firstMissing_none (store : Store) :
    ∀ l : List Image,
      firstMissing store l = none ↔ ∀ img ∈ l, store.hasFile img.file_path = true := by
  intro l
  induction l with
  | nil => simp [firstMissing]
  | cons a t ih =>
    cases h : store.hasFile a.file_path <;> simp [firstMissing, h, ih]

theorem firstMissing_append (store : Store) (pre : List Image) (img : Image) (suf : List Image)
    (hpre : ∀ x ∈ pre, store.hasFile x.file_path = true)
    (hmiss : store.hasFile img.file_path = false) :
    firstMissing store (pre ++ img :: suf) = some img.file_path := by
  induction pre with
  | nil => simp [firstMissing, hmiss]
  | cons a t ih =>
    have ha : store.hasFile a.file_path = true := hpre a (by simp)
    simp only [List.cons_append, firstMissing, ha, if_true]
    exact ih (fun x hx => hpre x (by simp [hx]))

theorem stageLoop_ok (tempDir : String) :
    ∀ (imgs : List Image) (store : Store) (i : Nat),
      (∀ img ∈ imgs, store.hasFile img.file_path = true) →
      ∃ st2, stageLoop none tempDir store i imgs =
        (st2, .ok ((List.range' i imgs.length).map (stagedImagePath tempDir))) := by
  intro imgs
  induction imgs with
  | nil => exact fun store i _ => ⟨store, rfl⟩
  | cons img rest ih =>
    intro store i h
    have himg := h img (by simp)
    rw [hasFile_iff_getFile] at himg
    obtain ⟨c, hc⟩ : ∃ c, store.getFile img.file_path = some c := by
      cases hgf : store.getFile img.file_path
      · rw [hgf] at himg; cases himg
      · exact ⟨_, rfl⟩
    have hrest : ∀ x ∈ rest,
        (store.writeFile (stagedImagePath tempDir i) c).hasFile x.file_path = true :=
      fun x hx => hasFile_writeFile_of _ _ _ (h x (by simp [hx]))
    obtain ⟨st2, hst⟩ := ih (store.writeFile (stagedImagePath tempDir i) c) (i + 1) hrest
    refine ⟨st2, ?_⟩
    simp [stageLoop, hc, hst, List.range'_succ]

theorem ffmpeg_ok_writes {store st2 : Store} {enc : EncoderEnv} {paths : List String}
    {out dur : String} {fps : Nat}
    (h : generateVideoWithFFmpeg store enc paths out dur fps = .ok st2) :
    ∃ c, st2 = store.writeFile out c := by
  cases enc with
  | available o =>
    cases o with
    | exited code stderr =>
      by_cases hc : code = 0
      · simp only [generateVideoWithFFmpeg, if_pos hc, Except.ok.injEq] at h
        exact ⟨_, h.symm⟩
      · simp only [generateVideoWithFFmpeg, if_neg hc] at h
        cases h
    | spawnError msg =>
      simp only [generateVideoWithFFmpeg] at h
      cases h
  | unavailable w =>
    cases w
    · simp only [generateVideoWithFFmpeg, Bool.false_eq_true, if_false] at h
      cases h
    · simp only [generateVideoWithFFmpeg, if_true] at h
      exact ⟨_, (Except.ok.inj h).symm⟩

theorem dbSelect_double_update (db : List Project) (pid t1 t2 : Nat) (p0 : Project)
    (hp : dbSelectProject db pid = some p0) :
    dbSelectProject (dbUpdateStatus (dbUpdateStatus db pid .processing t1) pid .failed t2) pid =
      some { p0 with status := .failed, updated_at := t2 } := by
  rw [dbSelect_updateStatus, dbSelect_updateStatus, hp]
  rfl

theorem dbSelect_update_completed (db : List Project) (pid t1 t2 : Nat) (out : String)
    (p0 : Project) (hp : dbSelectProject db pid = some p0) :
    dbSelectProject
        (dbUpdateCompleted (dbUpdateStatus db pid .processing t1) pid out t2) pid =
      some { p0 with status := .completed, output_path := some out, updated_at := t2 } := by
  rw [dbSelect_updateCompleted, dbSelect_updateStatus, hp]
  rfl

/-! ### The master characterization of one `generateVideo` call -/

/-- Every call either rejects, having persisted `failed` over the `processing`
state while touching nothing else of the record, or resolves, having
persisted `completed` with the freshly allocated output path, which then
exists in the store; an allocated staging directory always gets a removal
attempt. -/
theorem generateVideo_spec (db : List Project) (store : Store) (env : Env) (pid : Nat) :
    ((generateVideo db store env pid).staging.isSome = true →
        (generateVideo db store env pid).stagingRemovalAttempted = true) ∧
    (resultOk (generateVideo db store env pid).result = false →
        (generateVideo db store env pid).db =
          dbUpdateStatus (dbUpdateStatus db pid .processing env.tProc) pid .failed env.tFin) ∧
    (∀ p, (generateVideo db store env pid).result = .ok p →
        (generateVideo db store env pid).db =
          dbUpdateCompleted (dbUpdateStatus db pid .processing env.tProc) pid
            (outputPathOf pid env.nowOut) env.tFin ∧
        (generateVideo db store env pid).store.hasFile (outputPathOf pid env.nowOut) = true ∧
        ∃ p1, dbSelectProject (dbUpdateStatus db pid .processing env.tProc) pid = some p1 ∧
          p = { p1 with status := .completed, output_path := some (outputPathOf pid env.nowOut), updated_at := env.tFin }) := by
  simp only [generateVideo]
  rcases h1 : dbSelectProject (dbUpdateStatus db pid Status.processing env.tProc) pid
    with _ | project
  · simp only [h1]
    simp [resultOk]
  · simp only [h1]
    cases h2 : env.queryImages.isEmpty
    · simp only [h2, Bool.false_eq_true, if_false]
      rcases h3 : firstMissing store env.queryImages with _ | missing
      · simp only [h3]
        rcases h4 : stageLoop env.copyFail (tempDirOf pid env.nowTmp)
            ((store.mkdir "uploads/videos").mkdir (tempDirOf pid env.nowTmp)) 0 env.queryImages
          with ⟨store3, res⟩
        rcases res with e | paths
        · simp only [h4]
          simp [resultOk]
        · simp only [h4]
          rcases h5 : generateVideoWithFFmpeg store3 env.encoder paths
              (outputPathOf pid env.nowOut) project.duration_per_image project.fps
            with e | store4
          · simp only [h5]
            simp [resultOk]
          · simp only [h5]
            cases h6 : env.rmOk
            · simp only [h6, Bool.false_eq_true, if_false]
              simp [resultOk]
            · simp only [h6, if_true]
              refine ⟨by simp, by simp [resultOk], ?_⟩
              intro p hp
              obtain ⟨c, hc⟩ := ffmpeg_ok_writes h5
              refine ⟨trivial, ?_, project, rfl, (Except.ok.inj hp).symm⟩
              rw [hc, hasFile_iff_getFile,
                getFile_removeDir _ (underDir_tempDir_outputPath pid env.nowTmp pid env.nowOut),
                getFile_writeFile_self]
              rfl
      · simp only [h3]
        simp [resultOk]
    · simp only [h2, if_true]
      simp [resultOk]

/-- The outcome of the best-effort staging cleanup influences neither the
returned value nor the raised error. -/
theorem generateVideo_result_cleanup (db : List Project) (store : Store) (env : Env)
    (pid : Nat) (b : Bool) :
    (generateVideo db store { env with cleanupOk := b } pid).result =
      (generateVideo db store env pid).result := by
  simp only [generateVideo]
  rcases h1 : dbSelectProject (dbUpdateStatus db pid Status.processing env.tProc) pid
    with _ | project
  · simp only [h1]
  · simp only [h1]
    cases h2 : env.queryImages.isEmpty
    · simp only [h2, Bool.false_eq_true, if_false]
      rcases h3 : firstMissing store env.queryImages with _ | missing
      · simp only [h3]
        rcases h4 : stageLoop env.copyFail (tempDirOf pid env.nowTmp)
            ((store.mkdir "uploads/videos").mkdir (tempDirOf pid env.nowTmp)) 0 env.queryImages
          with ⟨store3, res⟩
        rcases res with e | paths
        · simp only [h4]
        · simp only [h4]
          rcases h5 : generateVideoWithFFmpeg store3 env.encoder paths
              (outputPathOf pid env.nowOut) project.duration_per_image project.fps
            with e | store4
          · simp only [h5]
          · simp only [h5]
            cases h6 : env.rmOk
            · simp only [h6, Bool.false_eq_true, if_false]
            · simp only [h6, if_true]
      · simp only [h3]
    · simp only [h2, if_true]

theorem resultOk_true {r : Except GenError Project} (h : resultOk r = true) :
    ∃ p, r = .ok p := by
  cases r
  · simp [resultOk] at h
  · exact ⟨_, rfl⟩

/-- Two permuted lists with equal, duplicate-free key images coincide. -/
theorem eq_of_perm_of_map_eq {α β : Type} (f : α → β) :
    ∀ (l1 l2 : List α), l1.Perm l2 → l1.map f = l2.map f → (l1.map f).Nodup → l1 = l2 := by
  intro l1
  induction l1 with
  | nil =>
    intro l2 hperm _ _
    exact (List.Perm.eq_nil hperm.symm).symm
  | cons a t1 ih =>
    intro l2 hperm hmap hnd
    cases l2 with
    | nil => exact absurd (List.Perm.eq_nil hperm) (by simp)
    | cons b t2 =>
      simp only [List.map_cons, List.cons.injEq] at hmap
      obtain ⟨hfab, hmap2⟩ := hmap
      by_cases hab : a = b
      · subst hab
        have hnd2 : (t1.map f).Nodup := (List.nodup_cons.mp hnd).2
        rw [ih t2 hperm.cons_inv hmap2 hnd2]
      · exfalso
        have hmem : a ∈ b :: t2 := (hperm.mem_iff).1 (by simp)
        have hmem2 : a ∈ t2 := by
          rcases List.mem_cons.1 hmem with h | h
          · exact absurd h hab
          · exact h
        have hfmem : f a ∈ t2.map f := List.mem_map_of_mem f hmem2
        rw [← hmap2] at hfmem
        exact (List.nodup_cons.mp hnd).1 hfmem

/-- Across any sequence of attempts, the persisted `output_path` is non-null
exactly when it already was or some attempt in the sequence succeeded. -/
theorem runAttempts_outputPath (pid : Nat) :
    ∀ (envs : List Env) (db : List Project) (store : Store) (p0 : Project),
      dbSelectProject db pid = some p0 →
      ∃ v, dbSelectProject (runAttempts pid db store envs).1.1 pid = some v ∧
        (v.output_path ≠ none ↔
          (p0.output_path ≠ none ∨
            anySucceeded (runAttempts pid db store envs).2 = true)) := by
  intro envs
  induction envs with
  | nil =>
    intro db store p0 hp
    exact ⟨p0, hp, by simp [runAttempts, anySucceeded]⟩
  | cons env rest ih =>
    intro db store p0 hp
    obtain ⟨-, herr, hok⟩ := generateVideo_spec db store env pid
    cases hres : resultOk (generateVideo db store env pid).result
    · have hsel : dbSelectProject (generateVideo db store env pid).db pid =
          some { p0 with status := .failed, updated_at := env.tFin } := by
        rw [herr hres]
        exact dbSelect_double_update db pid env.tProc env.tFin p0 hp
      obtain ⟨v, hv, hiff⟩ :=
        ih (generateVideo db store env pid).db (generateVideo db store env pid).store _ hsel
      refine ⟨v, by simpa [runAttempts] using hv, ?_⟩
      simpa [runAttempts, anySucceeded, hres] using hiff
    · obtain ⟨p, hpres⟩ := resultOk_true hres
      obtain ⟨hdb, -, p1, hp1, hpe⟩ := hok p hpres
      have hsel : dbSelectProject (generateVideo db store env pid).db pid =
          some { p0 with status := .completed, output_path := some (outputPathOf pid env.nowOut), updated_at := env.tFin } := by
        rw [hdb]
        exact dbSelect_update_completed db pid env.tProc env.tFin _ p0 hp
      obtain ⟨v, hv, hiff⟩ :=
        ih (generateVideo db store env pid).db (generateVideo db store env pid).store _ hsel
      refine ⟨v, by simpa [runAttempts] using hv, ?_⟩
      have hAny : anySucceeded (runAttempts pid db store (env :: rest)).2 = true := by
        simp [runAttempts, anySucceeded, hres]
      exact ⟨fun _ => Or.inr hAny, fun _ => hiff.mpr (Or.inl (by simp))⟩

/-! ### The claims -/

/-- Claim C1: for every call of `generate` on an existing project with a
non-empty image set, when the call returns, the persisted status is either
`completed` with a non-null `output_path` naming a file that exists in the
store, or `failed` with `output_path` equal to its value before the call;
the status is never left as `processing`. -/
theorem C1_terminal_status (db : List Project) (store : Store) (env : Env) (pid : Nat)
    (all : List Image) (p0 : Project)
    (hp : dbSelectProject db pid = some p0)
    (hq : ImagesQuery all pid env.queryImages)
    (hne : projectImages all pid ≠ []) :
    ∃ v, dbSelectProject (generateVideo db store env pid).db pid = some v ∧
      v.status ≠ Status.processing ∧
      (resultOk (generateVideo db store env pid).result = true →
        v.status = Status.completed ∧
        v.output_path = some (outputPathOf pid env.nowOut) ∧
        (generateVideo db store env pid).store.hasFile (outputPathOf pid env.nowOut) = true) ∧
      (resultOk (generateVideo db store env pid).result = false →
        v.status = Status.failed ∧ v.output_path = p0.output_path) := by
  obtain ⟨-, herr, hok⟩ := generateVideo_spec db store env pid
  cases hres : resultOk (generateVideo db store env pid).result
  · refine ⟨{ p0 with status := .failed, updated_at := env.tFin }, ?_, by simp, ?_, ?_⟩
    · rw [herr hres]
      exact dbSelect_double_update db pid env.tProc env.tFin p0 hp
    · exact fun h => Bool.noConfusion h
    · exact fun _ => ⟨rfl, rfl⟩
  · obtain ⟨p, hpres⟩ := resultOk_true hres
    obtain ⟨hdb, hfile, -⟩ := hok p hpres
    refine ⟨{ p0 with status := .completed, output_path := some (outputPathOf pid env.nowOut), updated_at := env.tFin }, ?_, by simp, ?_, ?_⟩
    · rw [hdb]
      exact dbSelect_update_completed db pid env.tProc env.tFin _ p0 hp
    · exact fun _ => ⟨rfl, rfl, hfile⟩
    · exact fun h => Bool.noConfusion h

/-- Claim C1 witness: a concrete successful run on an existing project with
one image. -/
theorem C1_witness :
    dbSelectProject [exProject] 1 = some exProject ∧
    ImagesQuery [exImage0] 1 envSuccess.queryImages ∧
    projectImages [exImage0] 1 ≠ [] ∧
    (∃ v, dbSelectProject (generateVideo [exProject] exStore envSuccess 1).db 1 = some v ∧
      v.status ≠ Status.processing ∧
      (resultOk (generateVideo [exProject] exStore envSuccess 1).result = true →
        v.status = Status.completed ∧
        v.output_path = some (outputPathOf 1 envSuccess.nowOut) ∧
        (generateVideo [exProject] exStore envSuccess 1).store.hasFile
          (outputPathOf 1 envSuccess.nowOut) = true) ∧
      (resultOk (generateVideo [exProject] exStore envSuccess 1).result = false →
        v.status = Status.failed ∧ v.output_path = exProject.output_path)) :=
  ⟨by decide, by decide, by decide,
    C1_terminal_status [exProject] exStore envSuccess 1 [exImage0] exProject
      (by decide) (by decide) (by decide)⟩

/-- Claim C2: on every failure of `generate`, the project record (when it
exists) is persisted with status `failed` and a fresh timestamp while its
`output_path` field is untouched (the record copy below changes only
`status` and `updated_at`), removal of an allocated staging directory is
attempted, and the original error is re-raised unchanged no matter how the
best-effort cleanup fares. -/
theorem C2_failure_frame (db : List Project) (store : Store) (env : Env) (pid : Nat)
    (e : GenError) (h : (generateVideo db store env pid).result = .error e) :
    (∀ p0, dbSelectProject db pid = some p0 →
        dbSelectProject (generateVideo db store env pid).db pid =
          some { p0 with status := .failed, updated_at := env.tFin }) ∧
    ((generateVideo db store env pid).staging.isSome = true →
        (generateVideo db store env pid).stagingRemovalAttempted = true) ∧
    (∀ b, (generateVideo db store { env with cleanupOk := b } pid).result = .error e) := by
  obtain ⟨hstag, herr, -⟩ := generateVideo_spec db store env pid
  have hres : resultOk (generateVideo db store env pid).result = false := by rw [h]; rfl
  refine ⟨?_, hstag, ?_⟩
  · intro p0 hp
    rw [herr hres]
    exact dbSelect_double_update db pid env.tProc env.tFin p0 hp
  · intro b
    rw [generateVideo_result_cleanup db store env pid b, h]

/-- Claim C2 witness: a concrete failing run (encoder exits 1). -/
theorem C2_witness :
    (generateVideo [exProject] exStore envEncodeFail 1).result =
      .error (.encodeFailed 1 "boom") ∧
    ((∀ p0, dbSelectProject [exProject] 1 = some p0 →
        dbSelectProject (generateVideo [exProject] exStore envEncodeFail 1).db 1 =
          some { p0 with status := .failed, updated_at := envEncodeFail.tFin }) ∧
    ((generateVideo [exProject] exStore envEncodeFail 1).staging.isSome = true →
        (generateVideo [exProject] exStore envEncodeFail 1).stagingRemovalAttempted = true) ∧
    (∀ b, (generateVideo [exProject] exStore { envEncodeFail with cleanupOk := b } 1).result =
        .error (.encodeFailed 1 "boom"))) :=
  ⟨by decide,
    C2_failure_frame [exProject] exStore envEncodeFail 1 (.encodeFailed 1 "boom") (by decide)⟩

/-- Claim C3 counterexample: after a successful attempt followed by a failing
attempt, the most recent attempt failed yet the persisted `output_path` is
still the non-null path of the earlier success — refuting "non-null iff the
most recent attempt succeeded". -/
theorem C3_counterexample :
    (generateVideo (generateVideo [exProject] exStore envSuccess 1).db
        (generateVideo [exProject] exStore envSuccess 1).store envEncodeFail 1).result =
      .error (.encodeFailed 1 "boom") ∧
    dbSelectProject
        (generateVideo (generateVideo [exProject] exStore envSuccess 1).db
          (generateVideo [exProject] exStore envSuccess 1).store envEncodeFail 1).db 1 =
      some ⟨1, "Demo", .failed, some "uploads/videos/project_1_100.mp4", "2.00", 30, 0, 12⟩ := by
  decide

/-- Claim C3 (amended): starting from a project with no `output_path`, after
any sequence of generation attempts the persisted `output_path` is non-null
if and only if at least one attempt of the sequence succeeded — a failed
attempt leaves the previous value, a successful one overwrites it. -/
theorem C3_output_path_iff_success (db : List Project) (store : Store) (pid : Nat)
    (p0 : Project) (envs : List Env)
    (hp : dbSelectProject db pid = some p0) (h0 : p0.output_path = none) :
    ∃ v, dbSelectProject (runAttempts pid db store envs).1.1 pid = some v ∧
      (v.output_path ≠ none ↔ anySucceeded (runAttempts pid db store envs).2 = true) := by
  obtain ⟨v, hv, hiff⟩ := runAttempts_outputPath pid envs db store p0 hp
  refine ⟨v, hv, ?_⟩
  rw [hiff, h0]
  simp

/-- Claim C3 witness: one successful then one failing attempt; `output_path`
is non-null and indeed some attempt succeeded. -/
theorem C3_witness :
    dbSelectProject [exProject] 1 = some exProject ∧
    exProject.output_path = none ∧
    (∃ v, dbSelectProject
          (runAttempts 1 [exProject] exStore [envSuccess, envEncodeFail]).1.1 1 = some v ∧
        (v.output_path ≠ none ↔
          anySucceeded (runAttempts 1 [exProject] exStore [envSuccess, envEncodeFail]).2 =
            true)) :=
  ⟨by decide, by decide,
    C3_output_path_iff_success [exProject] exStore 1 exProject [envSuccess, envEncodeFail]
      (by decide) (by decide)⟩

/-- Claim C4: when the ordered image list has a missing stored file (here:
all of `pre` present, `img` absent), `generate` fails with an error naming
that first missing file in frame order, persists `failed`, and neither
stages nor encodes — the store is unchanged and no staging directory was
allocated, so no output file is produced. -/
theorem C4_missing_asset (db : List Project) (store : Store) (env : Env) (pid : Nat)
    (p0 : Project) (pre suf : List Image) (img : Image)
    (hp : dbSelectProject db pid = some p0)
    (hsplit : env.queryImages = pre ++ img :: suf)
    (hmiss : store.hasFile img.file_path = false)
    (hpre : ∀ x ∈ pre, store.hasFile x.file_path = true) :
    (generateVideo db store env pid).result = .error (.missingAsset img.file_path) ∧
    dbSelectProject (generateVideo db store env pid).db pid =
      some { p0 with status := .failed, updated_at := env.tFin } ∧
    (generateVideo db store env pid).store = store ∧
    (generateVideo db store env pid).staging = none := by
  have hfm : firstMissing store env.queryImages = some img.file_path := by
    rw [hsplit]
    exact firstMissing_append store pre img suf hpre hmiss
  have hne2 : env.queryImages.isEmpty = false := by
    rw [hsplit]
    cases pre <;> rfl
  have hsel : dbSelectProject (dbUpdateStatus db pid .processing env.tProc) pid =
      some { p0 with status := .processing, updated_at := env.tProc } := by
    rw [dbSelect_updateStatus, hp]
    rfl
  simp only [generateVideo, hsel, hne2, Bool.false_eq_true, if_false, hfm]
  exact ⟨trivial, dbSelect_double_update db pid env.tProc env.tFin p0 hp, trivial, trivial⟩

/-- Claim C4 witness: the second image's file has been deleted from the
store; generation fails naming exactly that file. -/
theorem C4_witness :
    dbSelectProject [exProject] 1 = some exProject ∧
    envMissing.queryImages = [exImage0] ++ exMissing :: [] ∧
    exStore.hasFile exMissing.file_path = false ∧
    (∀ x ∈ [exImage0], exStore.hasFile x.file_path = true) ∧
    ((generateVideo [exProject] exStore envMissing 1).result =
        .error (.missingAsset exMissing.file_path) ∧
      dbSelectProject (generateVideo [exProject] exStore envMissing 1).db 1 =
        some { exProject with status := .failed, updated_at := envMissing.tFin } ∧
      (generateVideo [exProject] exStore envMissing 1).store = exStore ∧
      (generateVideo [exProject] exStore envMissing 1).staging = none) :=
  ⟨by decide, by decide, by decide, by decide,
    C4_missing_asset [exProject] exStore envMissing 1 exProject [exImage0] [] exMissing
      (by decide) (by decide) (by decide) (by decide)⟩

/-- Claim C5 counterexample: the image query orders only by `order_index`
(`ORDER BY order_index ASC`, lines 41-45), so for two images sharing an
`order_index` both interleavings are valid query results, and the frame
sequence used for generation is not uniquely determined — there is no
deterministic secondary sort. -/
theorem C5_counterexample :
    ImagesQuery [exImage0, exDup] 1 [exImage0, exDup] ∧
    ImagesQuery [exImage0, exDup] 1 [exDup, exImage0] ∧
    [exImage0, exDup] ≠ [exDup, exImage0] := by
  refine ⟨by decide, by decide, by decide⟩

/-- Claim C5 (amended): the query result is deterministic exactly on the
guarantee the code gives — when the project's images carry pairwise distinct
`order_index` values, any two valid results of the ordered query coincide;
with duplicates the tie order is database-dependent. -/
theorem C5_distinct_indices_deterministic (all : List Image) (pid : Nat)
    (res1 res2 : List Image)
    (hnd : ((projectImages all pid).map Image.order_index).Nodup)
    (h1 : ImagesQuery all pid res1) (h2 : ImagesQuery all pid res2) :
    res1 = res2 := by
  obtain ⟨hp1, hs1⟩ := h1
  obtain ⟨hp2, hs2⟩ := h2
  have hperm : res1.Perm res2 := hp1.trans hp2.symm
  have hk1 : List.Pairwise (fun a b : Nat => a ≤ b) (res1.map Image.order_index) :=
    List.Pairwise.map _ (fun {a b} hab => hab) hs1
  have hk2 : List.Pairwise (fun a b : Nat => a ≤ b) (res2.map Image.order_index) :=
    List.Pairwise.map _ (fun {a b} hab => hab) hs2
  have hkeq : res1.map Image.order_index = res2.map Image.order_index :=
    List.eq_of_perm_of_sorted (hperm.map _) hk1 hk2
  have hnd1 : (res1.map Image.order_index).Nodup := ((hp1.map _).nodup_iff).2 hnd
  exact eq_of_perm_of_map_eq Image.order_index res1 res2 hperm hkeq hnd1

/-- Claim C5 witness: with distinct order indices the query result is
unique. -/
theorem C5_witness :
    ((projectImages [exImage0, exImage1] 1).map Image.order_index).Nodup ∧
    ImagesQuery [exImage0, exImage1] 1 [exImage0, exImage1] ∧
    [exImage0, exImage1] = [exImage0, exImage1] :=
  ⟨by decide, by decide,
    C5_distinct_indices_deterministic [exImage0, exImage1] 1 [exImage0, exImage1]
      [exImage0, exImage1] (by decide) (by decide) (by decide)⟩

/-- Claim C6 counterexample: the staged names are `image_NNNN.jpg` (not
`frame_NNNN`), and `padStart(4, '0')` does not keep lexicographic order past
10,000 frames: the name of frame 10000 sorts strictly before the name of
frame 9999, so for a list of 10,001 frames lexicographic sorting does not
reproduce the input order. -/
theorem C6_counterexample :
    stagedImagePath (tempDirOf 1 0) 0 = "uploads/temp/project_1_0/image_0000.jpg" ∧
    strLt (stagedImagePath (tempDirOf 1 0) 10000) (stagedImagePath (tempDirOf 1 0) 9999) ∧
    ¬ strLt (stagedImagePath (tempDirOf 1 0) 9999) (stagedImagePath (tempDirOf 1 0) 10000) := by
  refine ⟨by decide, by decide, by decide⟩

/-- Claim C6 (amended): staging copies each source, in the given order, to
`image_NNNN.jpg` under the staging directory with 4-digit zero padding, and
lexicographic sorting of the staged names reproduces the input order for
every list of at most 10,000 frames (beyond that the padding scheme breaks
lexicographic order). -/
theorem C6_staging_names (tempDir : String) (imgs : List Image) (store : Store)
    (hall : ∀ img ∈ imgs, store.hasFile img.file_path = true)
    (hlen : imgs.length ≤ 10000) :
    ∃ st2, stageLoop none tempDir store 0 imgs =
        (st2, .ok ((List.range' 0 imgs.length).map (stagedImagePath tempDir))) ∧
      List.Pairwise strLt ((List.range' 0 imgs.length).map (stagedImagePath tempDir)) := by
  obtain ⟨st2, hst⟩ := stageLoop_ok tempDir imgs store 0 hall
  refine ⟨st2, hst, ?_⟩
  rw [List.pairwise_map]
  refine List.Pairwise.imp_of_mem ?_ (List.pairwise_lt_range' 0 imgs.length)
  intro a b ha hb hab
  have hb10 : b < 10000 := by
    have := List.mem_range'_1.1 hb
    omega
  exact stagedImagePath_lt tempDir hab hb10

/-- Claim C6 witness: staging one present image yields the staged name list,
lexicographically sorted. -/
theorem C6_witness :
    (∀ img ∈ [exImage0], exStore.hasFile img.file_path = true) ∧
    ([exImage0] : List Image).length ≤ 10000 ∧
    (∃ st2, stageLoop none (tempDirOf 1 100) exStore 0 [exImage0] =
        (st2, .ok ((List.range' 0 ([exImage0] : List Image).length).map
          (stagedImagePath (tempDirOf 1 100)))) ∧
      List.Pairwise strLt ((List.range' 0 ([exImage0] : List Image).length).map
        (stagedImagePath (tempDirOf 1 100)))) :=
  ⟨by decide, by decide,
    C6_staging_names (tempDirOf 1 100) [exImage0] exStore (by decide) (by decide)⟩

/-- Claim C7 counterexample: a process-spawn failure rejects with an error
carrying only the spawn error message — it carries no exit code and no
captured stderr, refuting "every process-spawn failure yields an error that
carries the exit code and the captured diagnostic text". -/
theorem C7_counterexample :
    generateVideoWithFFmpeg exStore (.available (.spawnError "spawn ffmpeg ENOENT"))
        ["uploads/temp/project_1_100/image_0000.jpg"] "uploads/videos/project_1_100.mp4"
        "2.00" 30 =
      .error (.spawnFailed "spawn ffmpeg ENOENT") ∧
    carriesExitInfo (GenError.spawnFailed "spawn ffmpeg ENOENT") = false := by
  refine ⟨by decide, by decide⟩

/-- Claim C7 (amended): a zero exit status of the child encoder process is
the only outcome treated as success; every non-zero exit status yields an
error carrying the exit code and the captured stderr, while a process-spawn
failure yields an error carrying the spawn error message (and no exit
code). -/
theorem C7_exit_code_semantics (store : Store) (paths : List String) (out dur : String)
    (fps : Nat) :
    (∀ stderr, generateVideoWithFFmpeg store (.available (.exited 0 stderr)) paths out dur fps =
        .ok (store.writeFile out (.encodedVideo paths dur fps))) ∧
    (∀ code stderr, code ≠ 0 →
        generateVideoWithFFmpeg store (.available (.exited code stderr)) paths out dur fps =
          .error (.encodeFailed code stderr)) ∧
    (∀ msg, generateVideoWithFFmpeg store (.available (.spawnError msg)) paths out dur fps =
        .error (.spawnFailed msg)) ∧
    (∀ outcome st2,
        generateVideoWithFFmpeg store (.available outcome) paths out dur fps = .ok st2 →
        ∃ stderr, outcome = .exited 0 stderr) := by
  refine ⟨fun s => by simp [generateVideoWithFFmpeg],
    fun c s hc => by simp [generateVideoWithFFmpeg, hc],
    fun m => rfl, ?_⟩
  intro outcome st2 h
  cases outcome with
  | spawnError m =>
    simp [generateVideoWithFFmpeg] at h
  | exited c s =>
    by_cases hc : c = 0
    · exact ⟨s, by rw [hc]⟩
    · simp [generateVideoWithFFmpeg, hc] at h

/-- Claim C7 witness: a concrete non-zero exit yields the error with its
exit code and stderr. -/
theorem C7_witness :
    (1 : Int) ≠ 0 ∧
    generateVideoWithFFmpeg exStore (.available (.exited 1 "boom")) [] "o.mp4" "2.00" 30 =
      .error (.encodeFailed 1 "boom") :=
  ⟨by decide, (C7_exit_code_semantics exStore [] "o.mp4" "2.00" 30).2.1 1 "boom" (by decide)⟩

/-- Claim C8 counterexample: two distinct attempts (they allocate different
staging directories, so their environments differ) in the same millisecond
for the same project allocate the same output path — the persisted
`output_path` of both successful runs is identical. -/
theorem C8_counterexample :
    envSuccess ≠ envSuccess2 ∧
    (generateVideo [exProject] exStore envSuccess 1).result =
      .ok ⟨1, "Demo", .completed, some "uploads/videos/project_1_100.mp4", "2.00", 30, 0, 2⟩ ∧
    (generateVideo [exProject] exStore envSuccess2 1).result =
      .ok ⟨1, "Demo", .completed, some "uploads/videos/project_1_100.mp4", "2.00", 30, 0, 2⟩ := by
  refine ⟨by decide, by decide, by decide⟩

/-- Claim C8 (amended): the allocated output path
`uploads/videos/project_{id}_{Date.now()}.mp4` collides exactly when both
the project id and the millisecond timestamp coincide; attempts differing
in either are collision-free, but two attempts for the same project in the
same millisecond collide. -/
theorem C8_output_path_collision_iff (pid t pid2 t2 : Nat) :
    outputPathOf pid t = outputPathOf pid2 t2 ↔ (pid = pid2 ∧ t = t2) :=
  outputPathOf_inj pid t pid2 t2

/-- Claim C9: when the encoder module cannot be loaded at all, the adapter
does not fail: it writes the minimal placeholder MP4 at the allocated output
path and the pipeline completes — status `completed` is persisted with the
output path — and the placeholder content is distinguishable from every
genuinely encoded video. -/
theorem C9_placeholder_fallback (db : List Project) (store : Store) (env : Env) (pid : Nat)
    (p0 : Project)
    (hp : dbSelectProject db pid = some p0)
    (hne : env.queryImages.isEmpty = false)
    (hall : ∀ img ∈ env.queryImages, store.hasFile img.file_path = true)
    (hcf : env.copyFail = none)
    (hrm : env.rmOk = true)
    (henc : env.encoder = .unavailable true) :
    (generateVideo db store env pid).result =
      .ok { p0 with status := .completed, output_path := some (outputPathOf pid env.nowOut), updated_at := env.tFin } ∧
    dbSelectProject (generateVideo db store env pid).db pid =
      some { p0 with status := .completed, output_path := some (outputPathOf pid env.nowOut), updated_at := env.tFin } ∧
    (generateVideo db store env pid).store.getFile (outputPathOf pid env.nowOut) =
      some FileContent.placeholderMp4 ∧
    (∀ frames dur fps, FileContent.placeholderMp4 ≠ FileContent.encodedVideo frames dur fps) := by
  have hsel : dbSelectProject (dbUpdateStatus db pid .processing env.tProc) pid =
      some { p0 with status := .processing, updated_at := env.tProc } := by
    rw [dbSelect_updateStatus, hp]
    rfl
  have hfm : firstMissing store env.queryImages = none :=
    (firstMissing_none store env.queryImages).2 hall
  have hall2 : ∀ img ∈ env.queryImages,
      ((store.mkdir "uploads/videos").mkdir (tempDirOf pid env.nowTmp)).hasFile
        img.file_path = true := hall
  obtain ⟨st2, hst⟩ := stageLoop_ok (tempDirOf pid env.nowTmp) env.queryImages
    ((store.mkdir "uploads/videos").mkdir (tempDirOf pid env.nowTmp)) 0 hall2
  simp only [generateVideo, hsel, hne, Bool.false_eq_true, if_false, hfm, hcf, hst, henc,
    generateVideoWithFFmpeg, if_true, hrm]
  refine ⟨trivial, ?_, ?_, fun frames dur fps h => FileContent.noConfusion h⟩
  · exact dbSelect_update_completed db pid env.tProc env.tFin _ p0 hp
  · rw [getFile_removeDir _ (underDir_tempDir_outputPath pid env.nowTmp pid env.nowOut),
      getFile_writeFile_self]

/-- Claim C9 witness: a concrete run with the encoder module unavailable
completes with the placeholder at the allocated path. -/
theorem C9_witness :
    dbSelectProject [exProject] 1 = some exProject ∧
    envPlaceholder.queryImages.isEmpty = false ∧
    (∀ img ∈ envPlaceholder.queryImages, exStore.hasFile img.file_path = true) ∧
    envPlaceholder.copyFail = none ∧
    envPlaceholder.rmOk = true ∧
    envPlaceholder.encoder = .unavailable true ∧
    ((generateVideo [exProject] exStore envPlaceholder 1).result =
        .ok { exProject with status := .completed, output_path := some (outputPathOf 1 envPlaceholder.nowOut), updated_at := envPlaceholder.tFin } ∧
      dbSelectProject (generateVideo [exProject] exStore envPlaceholder 1).db 1 =
        some { exProject with status := .completed, output_path := some (outputPathOf 1 envPlaceholder.nowOut), updated_at := envPlaceholder.tFin } ∧
      (generateVideo [exProject] exStore envPlaceholder 1).store.getFile
          (outputPathOf 1 envPlaceholder.nowOut) = some FileContent.placeholderMp4 ∧
      (∀ frames dur fps,
        FileContent.placeholderMp4 ≠ FileContent.encodedVideo frames dur fps)) :=
  ⟨by decide, by decide, by decide, by decide, by decide, by decide,
    C9_placeholder_fallback [exProject] exStore envPlaceholder 1 exProject
      (by decide) (by decide) (by decide) (by decide) (by decide) (by decide)⟩

/-- Claim C10: when encoding succeeds but removing the staging directory
throws, `generate` persists `failed` (leaving `output_path` untouched) and
re-raises the cleanup error, even though the encoded video file sits at the
allocated output path in the store. -/
theorem C10_cleanup_failure_after_encode (db : List Project) (store : Store) (env : Env)
    (pid : Nat) (p0 : Project) (stderr : String)
    (hp : dbSelectProject db pid = some p0)
    (hne : env.queryImages.isEmpty = false)
    (hall : ∀ img ∈ env.queryImages, store.hasFile img.file_path = true)
    (hcf : env.copyFail = none)
    (henc : env.encoder = .available (.exited 0 stderr))
    (hrm : env.rmOk = false) :
    (generateVideo db store env pid).result = .error (.rmFailed (tempDirOf pid env.nowTmp)) ∧
    dbSelectProject (generateVideo db store env pid).db pid =
      some { p0 with status := .failed, updated_at := env.tFin } ∧
    (generateVideo db store env pid).store.getFile (outputPathOf pid env.nowOut) =
      some (FileContent.encodedVideo
        ((List.range' 0 env.queryImages.length).map (stagedImagePath (tempDirOf pid env.nowTmp)))
        p0.duration_per_image p0.fps) := by
  have hsel : dbSelectProject (dbUpdateStatus db pid .processing env.tProc) pid =
      some { p0 with status := .processing, updated_at := env.tProc } := by
    rw [dbSelect_updateStatus, hp]
    rfl
  have hfm : firstMissing store env.queryImages = none :=
    (firstMissing_none store env.queryImages).2 hall
  have hall2 : ∀ img ∈ env.queryImages,
      ((store.mkdir "uploads/videos").mkdir (tempDirOf pid env.nowTmp)).hasFile
        img.file_path = true := hall
  obtain ⟨st2, hst⟩ := stageLoop_ok (tempDirOf pid env.nowTmp) env.queryImages
    ((store.mkdir "uploads/videos").mkdir (tempDirOf pid env.nowTmp)) 0 hall2
  simp only [generateVideo, hsel, hne, Bool.false_eq_true, if_false, hfm, hcf, hst, henc,
    generateVideoWithFFmpeg, if_true, hrm]
  refine ⟨trivial, dbSelect_double_update db pid env.tProc env.tFin p0 hp, ?_⟩
  cases hcl : env.cleanupOk
  · simp only [hcl, Bool.false_eq_true, if_false]
    rw [getFile_writeFile_self]
  · simp only [hcl, if_true]
    rw [getFile_removeDir _ (underDir_tempDir_outputPath pid env.nowTmp pid env.nowOut),
      getFile_writeFile_self]

/-- Claim C10 witness: a concrete run where the encoder succeeds, the
staging removal fails, and the video is present while status reads
`failed`. -/
theorem C10_witness :
    dbSelectProject [exProject] 1 = some exProject ∧
    envRmFail.queryImages.isEmpty = false ∧
    (∀ img ∈ envRmFail.queryImages, exStore.hasFile img.file_path = true) ∧
    envRmFail.copyFail = none ∧
    envRmFail.encoder = .available (.exited 0 "") ∧
    envRmFail.rmOk = false ∧
    ((generateVideo [exProject] exStore envRmFail 1).result =
        .error (.rmFailed (tempDirOf 1 envRmFail.nowTmp)) ∧
      dbSelectProject (generateVideo [exProject] exStore envRmFail 1).db 1 =
        some { exProject with status := .failed, updated_at := envRmFail.tFin } ∧
      (generateVideo [exProject] exStore envRmFail 1).store.getFile
          (outputPathOf 1 envRmFail.nowOut) =
        some (FileContent.encodedVideo
          ((List.range' 0 envRmFail.queryImages.length).map
            (stagedImagePath (tempDirOf 1 envRmFail.nowTmp)))
          exProject.duration_per_image exProject.fps)) :=
  ⟨by decide, by decide, by decide, by decide, by decide, by decide,
    C10_cleanup_failure_after_encode [exProject] exStore envRmFail 1 exProject ""
      (by decide) (by decide) (by decide) (by decide) (by decide) (by decide)⟩

end ImageToVideo
